import Mathlib

/-!
Shallow embedding of the core of the `dg` pointer/reaching-definitions
analysis engine, and theorems settling the specification claims.

Source layout mirrored here:
- `dg.pta`  : `src/analysis/PointsTo/PointerAnalysis.h`
  (`preprocessGEPs`, the fixpoint loop of `run()`, and the node
  enumeration it relies on).
- `dg.rd`   : `src/llvm/LLVMReachingDefinitions.cpp`
  (`LLVMRDBuilder`: `createAlloc`, `createStore`, `buildBlock`,
  `blockAddSuccessors`, `createCallToFunction`, `buildFunction`,
  `getMemAllocationFunc`, `createCall`, `buildGlobals`, `build`).

Recursive graph construction is embedded with an explicit fuel
parameter; fuel exhaustion (and every C/C++ `assert` failure or fatal
abort / undefined behaviour) is modelled as `Option.none`.
-/

set_option maxRecDepth 8000
set_option maxHeartbeats 1600000

namespace dg

/-- Sentinel offset `UNKNOWN_OFFSET` (`~((uint64_t) 0)` in the source). -/
def UNKNOWN_OFFSET : Nat := 2 ^ 64 - 1

namespace pta

/-- Node kinds of the pointer-state subgraph (the closed set from the data model). -/
inductive PSNodeType where
  | ALLOC | LOAD | STORE | GEP | PHI | CAST | CALL | RETURN | FUNCTION
  | NULLPTR_NODE | UNKNOWN_MEM | CONSTANT | NOOP
deriving DecidableEq, Repr

/-- The per-node data that `preprocessGEPs` reads and writes: the kind tag
and the per-node offset (`n->getType()`, `n->setOffset(...)`). -/
structure PSNodeData where
  ty : PSNodeType
  offset : Nat
deriving DecidableEq, Repr

/-- Functional update of one node's offset, the effect of `n->setOffset(off)`.
Nodes are identified by their arena id. -/
def setOffset (nodes : Nat → PSNodeData) (n : Nat) (off : Nat) : Nat → PSNodeData :=
  fun m => if m = n then { nodes n with offset := off } else nodes m

/-- The inner loop body of `preprocessGEPs`: when `n` is a GEP node, force
its offset to `UNKNOWN_OFFSET`. -/
def gepStep (nodes : Nat → PSNodeData) (n : Nat) : Nat → PSNodeData :=
  if (nodes n).ty = PSNodeType.GEP then setOffset nodes n UNKNOWN_OFFSET else nodes

/-- The outer loop body of `preprocessGEPs`: process one SCC, touching it
only when its size exceeds one. -/
def sccPass (nodes : Nat → PSNodeData) (scc : List Nat) : Nat → PSNodeData :=
  if 1 < scc.length then scc.foldl gepStep nodes else nodes

/-- Embedding of `PointerAnalysis::preprocessGEPs`: for every SCC of size
greater than one, force the offset of every GEP node in it to
`UNKNOWN_OFFSET`.  The SCC list is the one computed by the `SCC<PSNode>`
pass at construction time. -/
def preprocessGEPs (SCCs : List (List Nat)) (nodes : Nat → PSNodeData) : Nat → PSNodeData :=
  SCCs.foldl sccPass nodes

/-- A pointer-state subgraph for the enumeration interface: a node universe
and a successor map. -/
structure PSGraph where
  nodes : List Nat
  succ : Nat → List Nat

/-- One expansion step of reachability: a node list together with all
successors of its members. -/
def reachExpand (g : PSGraph) (l : List Nat) : List Nat :=
  l ++ l.flatMap g.succ

/-- Iterated expansion. -/
def iterExpand (g : PSGraph) : Nat → List Nat → List Nat
  | 0, l => l
  | n + 1, l => iterExpand g n (reachExpand g l)

/-- Modelled from the spec: `PointerSubgraph::getNodes(nullptr, &seeds, expected)`
is not under `src/` (only its caller `PointerAnalysis::run` is).  Per §4.1 it
returns the nodes reachable from any node of the seed set, deduplicated, the
`expected` argument being only a capacity hint.  Reachability is modelled by
expanding successor edges `|nodes|` times. -/
def getNodesFrom (g : PSGraph) (seeds : List Nat) (_expected : Nat) : List Nat :=
  (iterExpand g g.nodes.length seeds).dedup

/-- Modelled from the spec: `PointerSubgraph::getNodes(root)` (§4.1), the
single-start form used to seed the fixpoint. -/
def getNodes (g : PSGraph) (root : Nat) : List Nat :=
  getNodesFrom g [root] 0

/-- A concrete three-node subgraph (an edge `0 → 2`, node `1` isolated) used
to instantiate the enumeration lemmas. -/
def g0 : PSGraph :=
  PSGraph.mk [0, 1, 2] (fun n => if n = 0 then [2] else [])

/-- A concrete processing function reporting growth at every node, used to
instantiate the fixpoint-loop lemmas. -/
def step0 : Nat → Nat → Bool × Nat := fun _ st => (true, st)

/-- A concrete node-data store: node `0` is a GEP at offset 4, node `2` a
GEP at offset 5, all others are ALLOCs. -/
def wNodes : Nat → PSNodeData := fun n =>
  if n = 0 then PSNodeData.mk PSNodeType.GEP 4
  else if n = 2 then PSNodeData.mk PSNodeType.GEP 5
  else PSNodeData.mk PSNodeType.ALLOC 0

/-- The body of the processing loop of `PointerAnalysis::run`: for each node
of `to_process` in order, run `beforeProcessed | processNode | afterProcessed`
(abstracted as `step`, which may update an analysis state of type `σ`) and
collect into `changed` the nodes whose processing reported growth. -/
def collectChanged {σ : Type} (step : Nat → σ → Bool × σ) :
    List Nat → σ → List Nat × σ
  | [], st => ([], st)
  | cur :: rest, st =>
    let r := step cur st
    let rec' := collectChanged step rest r.2
    (if r.1 then cur :: rec'.1 else rec'.1, rec'.2)

/-- Embedding of the do-while fixpoint loop of `PointerAnalysis::run`:
process `to_process`, and while `changed` is non-empty re-enumerate
`to_process` from the `changed` seeds with `last_processed_num` as the
capacity hint. -/
def runLoop {σ : Type} (step : Nat → σ → Bool × σ) (g : PSGraph) :
    Nat → List Nat → σ → Option σ
  | 0, _, _ => none
  | fuel + 1, tp, st =>
    let last_processed_num := tp.length
    let r := collectChanged step tp st
    if r.1.isEmpty then some r.2
    else runLoop step g fuel (getNodesFrom g r.1 last_processed_num) r.2

/-- Embedding of `PointerAnalysis::run`: seed the worklist with all nodes
reachable from the root and iterate `runLoop` (GEP preprocessing acts on the
separate node-data store and is applied by the caller). -/
def run {σ : Type} (step : Nat → σ → Bool × σ) (g : PSGraph) (root : Nat)
    (fuel : Nat) (st : σ) : Option σ :=
  runLoop step g fuel (getNodes g root) st

end pta

namespace rd

/-- Target of a pointer in the points-to layer: the `NULLPTR` sentinel, the
`UNKNOWN_MEMORY` sentinel, or a PSS node carrying an IR value/function as
its user data (identified by a numeric id). -/
inductive PTarget where
  | nullptr
  | unknownMem
  | obj (v : Nat)
deriving DecidableEq, Repr

/-- A points-to pair `(target, offset)` (`pss::Pointer`). -/
structure Pointer where
  target : PTarget
  offset : Nat
deriving DecidableEq, Repr

/-- Embeds `Pointer::isNull()`: the target is the `NULLPTR` sentinel. -/
def Pointer.isNull (p : Pointer) : Bool :=
  p.target == PTarget.nullptr

/-- Embeds `getUserData<T>()` on a pointer target: the IR value attached by the
front end.  The sentinels carry no user data (null in the source). -/
def PTarget.userData : PTarget → Option Nat
  | PTarget.obj v => some v
  | _ => none

/-- A def-site tuple added by `RDNode::addDef(target, off, size, strong)`. -/
structure DefSite where
  target : Nat
  off : Nat
  size : Nat
  strong : Bool
deriving DecidableEq, Repr

/-- Embeds `LLVMRDBuilder::Subgraph`: the `(root, ret)` record cached per function
(default-constructed with null members by `std::map::operator[]`). -/
structure Subgraph where
  root : Option Nat
  ret : Option Nat
deriving DecidableEq, Repr

/-- The callee of a call instruction: `dyn_cast<Function>` succeeded on the
stripped called value (direct, identified by function id), or it is a
function-pointer expression (indirect, identified by its IR value id). -/
inductive CalleeKind where
  | direct (fid : Nat)
  | indirect (v : Nat)
deriving DecidableEq, Repr

/-- An instruction of the IR fragment the builder consumes.  Every
instruction carries the id of the IR value it defines; a store carries the
type id of its value operand and the value id of its address operand; a call
carries whether it is a debug intrinsic (`DbgValueInst`) and its callee. -/
inductive Inst where
  | alloca (id : Nat)
  | store (id : Nat) (valTy : Nat) (addr : Nat)
  | ret (id : Nat)
  | call (id : Nat) (isDbg : Bool) (callee : CalleeKind)
  | other (id : Nat)
deriving DecidableEq, Repr

/-- The id of the IR value an instruction defines. -/
def Inst.iid : Inst → Nat
  | Inst.alloca i => i
  | Inst.store i _ _ => i
  | Inst.ret i => i
  | Inst.call i _ _ => i
  | Inst.other i => i

/-- A basic block: id, instructions in order, CFG successor block ids. -/
structure Block where
  bid : Nat
  insts : List Inst
  succs : List Nat
deriving DecidableEq, Repr

/-- An IR function: id, name, `isIntrinsic()` flag and its basic blocks
(`size() == 0` means an empty body / declaration). -/
structure Func where
  fid : Nat
  name : String
  intrinsic : Bool
  blocks : List Block
deriving DecidableEq, Repr

/-- The builder's environment: the module (functions and, in declaration
order, global-variable value ids), the points-to oracle `PTA->getPointsTo`,
and the `DataLayout` services `isSized` and `getTypeAllocSize`. -/
structure Ctx where
  module : List Func
  globals : List Nat
  pta : Nat → Option (List Pointer)
  isSized : Nat → Bool
  allocSize : Nat → Nat

/-- Lookup of a function of the module by id (`dyn_cast` / user-data
resolution target). -/
def lookupFunc (module : List Func) (fid : Nat) : Option Func :=
  module.find? (fun F => F.fid == fid)

/-- The builder's mutable state: the arena counter handing out RDNode ids,
the two maps `nodes_map` (IR value → RDNode) and `subgraphs_map`
(function → Subgraph), the instruction `mapping`, all successor edges added
by `addSuccessor`, all def-sites added by `addDef` (keyed by the defining
RDNode), and the number of diagnostics written to `llvm::errs()`. -/
structure BState where
  next : Nat
  nodes_map : List (Nat × Nat)
  mapping : List (Nat × Nat)
  subgraphs_map : List (Nat × Subgraph)
  edges : List (Nat × Nat)
  defs : List (Nat × DefSite)
  logs : Nat
deriving DecidableEq, Repr

/-- The all-empty initial builder state. -/
def initState : BState :=
  { next := 0, nodes_map := [], mapping := [], subgraphs_map := [],
    edges := [], defs := [], logs := 0 }

/-- Keyed insert-or-overwrite, the semantics of `std::map::operator[] =`. -/
def mapInsert {α : Type} (k : Nat) (v : α) (m : List (Nat × α)) : List (Nat × α) :=
  (k, v) :: m.filter (fun p => p.1 != k)

/-- Embeds `a->addSuccessor(b)`. -/
def addEdge (a b : Nat) (s : BState) : BState :=
  { s with edges := s.edges ++ [(a, b)] }

/-- Embeds `LLVMRDBuilder::createAlloc` (also used for `Ret` and allocation calls):
allocate a fresh RDNode and record it in `nodes_map` via `addNode`. -/
def createAlloc (instId : Nat) (s : BState) : Nat × BState :=
  (s.next,
   { s with next := s.next + 1, nodes_map := mapInsert instId s.next s.nodes_map })

/-- Embeds `getAllocatedSize(Ty, DL)`: `0` for unsized types, otherwise
`DL->getTypeAllocSize(Ty)`. -/
def getAllocatedSize (ctx : Ctx) (ty : Nat) : Nat :=
  if ctx.isSized ty = false then 0 else ctx.allocSize ty

/-- The body of the pointer loop of `LLVMRDBuilder::createStore`: skip null
pointers; resolve the target's user data through `nodes_map` and, when no
RDNode exists for it, log a diagnostic and skip the def-site; otherwise add
the def-site with the computed size and the strong-update flag
`pts->pointsTo.size() == 1` (`card` below). -/
def storeStep (ctx : Ctx) (valTy : Nat) (card : Nat) (n : Nat)
    (s : BState) (ptr : Pointer) : BState :=
  if Pointer.isNull ptr then s
  else
    match Option.bind (PTarget.userData ptr.target) (fun v => List.lookup v s.nodes_map) with
    | none => { s with logs := s.logs + 1 }
    | some ptrNode =>
      let sz := getAllocatedSize ctx valTy
      let sz := if sz = 0 then UNKNOWN_OFFSET else sz
      { s with defs := s.defs ++
          [(n, { target := ptrNode, off := ptr.offset, size := sz, strong := card == 1 })] }

/-- Embeds `LLVMRDBuilder::createStore`: allocate the store's RDNode, query the
points-to set of the address operand (`assert` when absent), and run the
def-site loop over it. -/
def createStore (ctx : Ctx) (instId : Nat) (valTy : Nat) (addr : Nat)
    (s : BState) : Option (Nat × BState) :=
  let n := s.next
  let s := { s with next := s.next + 1, nodes_map := mapInsert instId n s.nodes_map }
  match ctx.pta addr with
  | none => none
  | some pts => some (n, pts.foldl (storeStep ctx valTy pts.length n) s)

/-- Names for `getMemAllocationFunc` results: recognize `malloc`/`calloc`/`alloca` by name;
`realloc` hits `assert(0 && "realloc not implemented yet")` (modelled as
`none`); unnamed and all other functions are `NONEMEM`. -/
inductive MemAllocKind where
  | NONEMEM | MALLOC | CALLOC | ALLOCA
deriving DecidableEq, Repr

/-- Embedding of `getMemAllocationFunc` (the `!func` case of the source
cannot arise here because the direct-call path already resolved the
function). -/
def getMemAllocationFunc (func : Func) : Option MemAllocKind :=
  if func.name = "" then some MemAllocKind.NONEMEM
  else if func.name = "malloc" then some MemAllocKind.MALLOC
  else if func.name = "calloc" then some MemAllocKind.CALLOC
  else if func.name = "alloca" then some MemAllocKind.ALLOCA
  else if func.name = "realloc" then none
  else some MemAllocKind.NONEMEM

/-- Embedding of the static helper `blockAddSuccessors`: for each CFG
successor `S` of `block`, if `S` was built add the edge `last → first_S` and
count it; otherwise recursively add the successors of `S`.  The recursion of
the source walks the block graph directly; `fuel` bounds it here. -/
def blockAddSuccessors (fuel : Nat) (allBlocks : List Block)
    (built : List (Nat × (Nat × Nat))) (last : Nat) (succs : List Nat)
    (s : BState) : Option (Nat × BState) :=
  match fuel with
  | 0 => none
  | fuel + 1 =>
    match succs with
    | [] => some (0, s)
    | S :: rest =>
      match List.lookup S built with
      | some pr =>
        match blockAddSuccessors fuel allBlocks built last rest (addEdge last pr.1 s) with
        | none => none
        | some r => some (r.1 + 1, r.2)
      | none =>
        match allBlocks.find? (fun b => b.bid == S) with
        | none => none
        | some SB =>
          match blockAddSuccessors fuel allBlocks built last SB.succs s with
          | none => none
          | some r1 =>
            match blockAddSuccessors fuel allBlocks built last rest r1.2 with
            | none => none
            | some r2 => some (r1.1 + r2.1, r2.2)

/-- The second loop of `buildFunction`: for every block of the function that
was built, stitch its successors with `blockAddSuccessors` and collect the
last nodes of blocks with no real successor (the function's return sites). -/
def addSuccLoop (fuel : Nat) (allBlocks : List Block)
    (built : List (Nat × (Nat × Nat))) (blocks : List Block) (s : BState) :
    Option (List Nat × BState) :=
  match blocks with
  | [] => some ([], s)
  | b :: rest =>
    match List.lookup b.bid built with
    | none => addSuccLoop fuel allBlocks built rest s
    | some pr =>
      match blockAddSuccessors fuel allBlocks built pr.2 b.succs s with
      | none => none
      | some r1 =>
        match addSuccLoop fuel allBlocks built rest r1.2 with
        | none => none
        | some r2 => some ((if r1.1 = 0 then pr.2 :: r2.1 else r2.1), r2.2)

/-- The signatures of the mutually recursive builder entry points
(`createCall`, its function-pointer fan-out loop, `createCallToFunction`,
`buildFunction`, its block loop, `buildBlock` and its instruction loop). -/
structure BuilderFns where
  createCallF : Ctx → Nat → CalleeKind → BState → Option ((Nat × Nat) × BState)
  funcPtrLoopF : Ctx → Nat → List Pointer → Nat → Nat → BState → Option BState
  createCallToFunctionF : Ctx → Nat → Func → BState → Option ((Nat × Nat) × BState)
  buildFunctionF : Ctx → Func → BState → Option (Nat × BState)
  buildBlocksLoopF : Ctx → List Block → BState → Option (List (Nat × (Nat × Nat)) × BState)
  buildBlockF : Ctx → Block → BState → Option ((Option Nat × Option Nat) × BState)
  buildInstsF : Ctx → List Inst → Nat → BState → Option (Nat × BState)

/-- Out-of-fuel bottom of the builder: every entry point dies. -/
def builderZero : BuilderFns :=
  BuilderFns.mk (fun _ _ _ _ => none) (fun _ _ _ _ _ _ => none) (fun _ _ _ _ => none)
    (fun _ _ _ => none) (fun _ _ _ => none) (fun _ _ _ => none) (fun _ _ _ _ => none)

/-- A bound on the depth of the `blockAddSuccessors` recursion over the
block graph of `F` (the source recursion is unbounded; it descends only
into unbuilt blocks, which `buildFunction` never produces). -/
def succFuel (F : Func) : Nat :=
  F.blocks.length + (F.blocks.map (fun b => b.succs.length)).sum + 1

/-- One fuel layer of the recursive builder.  Each field is the embedding of
one source function, with recursive calls going through `prev`:

* `createCallF` — `LLVMRDBuilder::createCall`.  Direct calls: recognized
  allocators and empty-bodied functions collapse to a single
  allocation-like RDNode returned as `(n, n)`; intrinsics are fatal;
  otherwise the callee subgraph is wired in through `createCallToFunction`
  and the call node recorded via `addNode`.  Function-pointer calls: query
  the points-to set of the called value (`assert` non-null, `assert`
  non-empty); with more than one target build a dispatch/join pair fanning
  out over the targets; with exactly one target resolve its user data
  directly (dereferenced without a null/unknown check in the source, so an
  unresolvable target is fatal).
* `funcPtrLoopF` — the fan-out loop of the function-pointer branch: null
  pointers are skipped (`ptr.isNull()` is the only filter); for every other
  pointer the target's user data is resolved to a function (unresolvable
  targets — such as the `UNKNOWN_MEMORY` sentinel, which carries no user
  data — dereference a null `Function` in the source, modelled as `none`)
  and wired `call_funcptr → cf.first`, `cf.second → ret_call`.
* `createCallToFunctionF` — `LLVMRDBuilder::createCallToFunction`: allocate
  the `returnNode` and `callNode` dummies, reuse the cached subgraph of `F`
  when its root is set, otherwise build `F` first and re-read the cache;
  then wire `callNode → subg.root` and `subg.ret → returnNode`
  (`assert(subg.root && subg.ret)`).
* `buildFunctionF` — `LLVMRDBuilder::buildFunction`: allocate the
  subgraph's `root` and unified `ret`, record `Subgraph(root, ret)` in
  `subgraphs_map` *before* building the blocks (so that recursive calls
  terminate), build all blocks, wire `root` to the first built block
  (`assert(first)`), stitch the block successors, and wire every return
  site to `ret` (`assert(!rets.empty())`).
* `buildBlocksLoopF` — the block loop of `buildFunction`: build each block
  in order and keep, per block id, the exported `(first, last)` pair when
  it is non-null (`assert` that the pair is all-null or all-non-null).
* `buildBlockF` — `LLVMRDBuilder::buildBlock`: allocate the dummy
  "PHI start block" node, make it the exported `first`, run the
  instruction loop from it, and export the final current node as `last`.
* `buildInstsF` — the instruction loop of `buildBlock`: record
  `mapping[inst] ← node` before dispatching; `Alloca` and `Ret` emit via
  `createAlloc`, `Store` via `createStore`, debug-intrinsic calls are
  skipped, other calls go through `createCall` (wiring `prev → subg.first`
  and continuing from `subg.second`), all remaining opcodes carry the
  current node forward; consecutive distinct nodes are chained by a
  successor edge. -/
def builderStep (prev : BuilderFns) : BuilderFns :=
  BuilderFns.mk
    (fun ctx instId callee s =>
      match callee with
      | CalleeKind.direct fid =>
        match lookupFunc ctx.module fid with
        | none => none
        | some func =>
          match getMemAllocationFunc func with
          | none => none
          | some ty =>
            if ty ≠ MemAllocKind.NONEMEM ∨ func.blocks.length = 0 then
              let r := createAlloc instId s
              some ((r.1, r.1), r.2)
            else if func.intrinsic then none
            else
              match prev.createCallToFunctionF ctx instId func s with
              | none => none
              | some (cf, s1) =>
                some (cf, { s1 with nodes_map := mapInsert instId cf.1 s1.nodes_map })
      | CalleeKind.indirect v =>
        match ctx.pta v with
        | none => none
        | some pts =>
          if pts.length = 0 then none
          else if 1 < pts.length then
            let call_funcptr := s.next
            let ret_call := s.next + 1
            let s1 := { s with
                        next := s.next + 2,
                        nodes_map := mapInsert instId call_funcptr s.nodes_map }
            match prev.funcPtrLoopF ctx instId pts call_funcptr ret_call s1 with
            | none => none
            | some s2 => some ((call_funcptr, ret_call), s2)
          else
            match pts with
            | [] => none
            | ptr :: _ =>
              match Option.bind (PTarget.userData ptr.target) (lookupFunc ctx.module) with
              | none => none
              | some func => prev.createCallToFunctionF ctx instId func s)
    (fun ctx instId pts callN retN s =>
      match pts with
      | [] => some s
      | ptr :: rest =>
        if Pointer.isNull ptr then prev.funcPtrLoopF ctx instId rest callN retN s
        else
          match Option.bind (PTarget.userData ptr.target) (lookupFunc ctx.module) with
          | none => none
          | some func =>
            match prev.createCallToFunctionF ctx instId func s with
            | none => none
            | some (cf, s1) =>
              prev.funcPtrLoopF ctx instId rest callN retN
                (addEdge cf.2 retN (addEdge callN cf.1 s1)))
    (fun ctx _instId F s =>
      let returnNode := s.next
      let callNode := s.next + 1
      let s1 := { s with next := s.next + 2 }
      match (List.lookup F.fid s1.subgraphs_map).getD (Subgraph.mk none none) with
      | Subgraph.mk (some r) (some t) =>
        some ((callNode, returnNode), addEdge t returnNode (addEdge callNode r s1))
      | Subgraph.mk (some _) none => none
      | Subgraph.mk none _ =>
        match prev.buildFunctionF ctx F s1 with
        | none => none
        | some (_, s2) =>
          match (List.lookup F.fid s2.subgraphs_map).getD (Subgraph.mk none none) with
          | Subgraph.mk (some r) (some t) =>
            some ((callNode, returnNode), addEdge t returnNode (addEdge callNode r s2))
          | _ => none)
    (fun ctx F s =>
      let root := s.next
      let ret := s.next + 1
      let s1 := { s with
                  next := s.next + 2,
                  subgraphs_map :=
                    mapInsert F.fid (Subgraph.mk (some root) (some ret)) s.subgraphs_map }
      match prev.buildBlocksLoopF ctx F.blocks s1 with
      | none => none
      | some (built, s2) =>
        match built.head? with
        | none => none
        | some hd =>
          let s3 := addEdge root hd.2.1 s2
          match addSuccLoop (succFuel F) F.blocks built F.blocks s3 with
          | none => none
          | some (rets, s4) =>
            if rets.length = 0 then none
            else some (root, rets.foldl (fun st r => addEdge r ret st) s4))
    (fun ctx blocks s =>
      match blocks with
      | [] => some ([], s)
      | b :: rest =>
        match prev.buildBlockF ctx b s with
        | none => none
        | some (nds, s1) =>
          match nds.1, nds.2 with
          | some f, some l =>
            match prev.buildBlocksLoopF ctx rest s1 with
            | none => none
            | some (built, s2) => some ((b.bid, (f, l)) :: built, s2)
          | none, none => prev.buildBlocksLoopF ctx rest s1
          | _, _ => none)
    (fun ctx b s =>
      let phi := s.next
      let s1 := { s with next := s.next + 1 }
      match prev.buildInstsF ctx b.insts phi s1 with
      | none => none
      | some (last, s2) => some ((some phi, some last), s2))
    (fun ctx insts node s =>
      match insts with
      | [] => some (node, s)
      | inst :: rest =>
        let s0 := { s with mapping := mapInsert (Inst.iid inst) node s.mapping }
        match inst with
        | Inst.alloca id =>
          let r := createAlloc id s0
          prev.buildInstsF ctx rest r.1 (if node ≠ r.1 then addEdge node r.1 r.2 else r.2)
        | Inst.store id valTy addr =>
          match createStore ctx id valTy addr s0 with
          | none => none
          | some (n, s1) =>
            prev.buildInstsF ctx rest n (if node ≠ n then addEdge node n s1 else s1)
        | Inst.ret id =>
          let r := createAlloc id s0
          prev.buildInstsF ctx rest r.1 (if node ≠ r.1 then addEdge node r.1 r.2 else r.2)
        | Inst.call id isDbg callee =>
          if isDbg then prev.buildInstsF ctx rest node s0
          else
            match prev.createCallF ctx id callee s0 with
            | none => none
            | some (cf, s1) => prev.buildInstsF ctx rest cf.2 (addEdge node cf.1 s1)
        | Inst.other _ => prev.buildInstsF ctx rest node s0)

/-- The fueled builder: `fuel` bounds the total recursion depth; every
entry point dies (`none`) when it runs out, modelling that the embedded
recursion is only executed to a finite depth. -/
def builderIter : Nat → BuilderFns
  | 0 => builderZero
  | fuel + 1 => builderStep (builderIter fuel)

/-- Embeds `LLVMRDBuilder::createCall` (see `builderStep`). -/
def createCall (fuel : Nat) (ctx : Ctx) (instId : Nat) (callee : CalleeKind)
    (s : BState) : Option ((Nat × Nat) × BState) :=
  (builderIter fuel).createCallF ctx instId callee s

/-- The function-pointer fan-out loop of `createCall` (see `builderStep`). -/
def funcPtrLoop (fuel : Nat) (ctx : Ctx) (instId : Nat) (pts : List Pointer)
    (callN retN : Nat) (s : BState) : Option BState :=
  (builderIter fuel).funcPtrLoopF ctx instId pts callN retN s

/-- Embeds `LLVMRDBuilder::createCallToFunction` (see `builderStep`). -/
def createCallToFunction (fuel : Nat) (ctx : Ctx) (instId : Nat) (F : Func)
    (s : BState) : Option ((Nat × Nat) × BState) :=
  (builderIter fuel).createCallToFunctionF ctx instId F s

/-- Embeds `LLVMRDBuilder::buildFunction` (see `builderStep`). -/
def buildFunction (fuel : Nat) (ctx : Ctx) (F : Func) (s : BState) :
    Option (Nat × BState) :=
  (builderIter fuel).buildFunctionF ctx F s

/-- The block loop of `buildFunction` (see `builderStep`). -/
def buildBlocksLoop (fuel : Nat) (ctx : Ctx) (blocks : List Block) (s : BState) :
    Option (List (Nat × (Nat × Nat)) × BState) :=
  (builderIter fuel).buildBlocksLoopF ctx blocks s

/-- Embeds `LLVMRDBuilder::buildBlock` (see `builderStep`). -/
def buildBlock (fuel : Nat) (ctx : Ctx) (b : Block) (s : BState) :
    Option ((Option Nat × Option Nat) × BState) :=
  (builderIter fuel).buildBlockF ctx b s

/-- The instruction loop of `buildBlock` (see `builderStep`). -/
def buildInsts (fuel : Nat) (ctx : Ctx) (insts : List Inst) (node : Nat)
    (s : BState) : Option (Nat × BState) :=
  (builderIter fuel).buildInstsF ctx insts node s

/-- Embeds `LLVMRDBuilder::buildGlobals`: one allocation-like RDNode per global in
declaration order, chained into a linear successor list; exports
`(first, last)` (both null when there are no globals). -/
def buildGlobals (ctx : Ctx) (s : BState) : (Option Nat × Option Nat) × BState :=
  ctx.globals.foldl
    (fun acc g =>
      let s0 := acc.2
      let cur := s0.next
      let s1 := { s0 with
                  next := s0.next + 1,
                  nodes_map := mapInsert g cur s0.nodes_map }
      match acc.1.2 with
      | some prev => ((acc.1.1, some cur), addEdge prev cur s1)
      | none => ((some cur, some cur), s1))
    ((none, none), s)

/-- Embeds `LLVMRDBuilder::build`: require a `main` function (fatal otherwise),
build the globals prelude and then `main`; when globals exist the global
chain becomes the overall root. -/
def build (fuel : Nat) (ctx : Ctx) (s : BState) : Option (Nat × BState) :=
  match ctx.module.find? (fun F => F.name == "main") with
  | none => none
  | some F =>
    let gl := buildGlobals ctx s
    match buildFunction fuel ctx F gl.2 with
    | none => none
    | some (root, s1) =>
      match gl.1.1, gl.1.2 with
      | some gfirst, some glast => some (gfirst, addEdge glast root s1)
      | _, _ => some (root, s1)

/-- Successor edges of a build result (empty when the build aborted). -/
def edgesOf (r : Option (Nat × BState)) : List (Nat × Nat) :=
  match r with
  | none => []
  | some p => p.2.edges

/-- Subgraph cache of a build result (empty when the build aborted). -/
def subgraphsOf (r : Option (Nat × BState)) : List (Nat × Subgraph) :=
  match r with
  | none => []
  | some p => p.2.subgraphs_map

/-- A context with no functions, no globals and a trivial oracle, for
scenarios that exercise only block structure. -/
def trivCtx : Ctx :=
  Ctx.mk [] [] (fun _ => none) (fun _ => true) (fun _ => 1)

/-- Scenario block `A` of the empty-block-skipping scenario: one alloca,
successor `B`. -/
def blockA : Block := Block.mk 0 [Inst.alloca 200] [1]

/-- Scenario block `B`: no instructions at all, successor `C`. -/
def blockB : Block := Block.mk 1 [] [2]

/-- Scenario block `C`: a return instruction, no successors. -/
def blockC : Block := Block.mk 2 [Inst.ret 201] []

/-- The scenario function with CFG `A → B → C` where `B` emits no
instruction node. -/
def fABC : Func := Func.mk 0 "main" false [blockA, blockB, blockC]

/-- Build of the `A → B → C` scenario function. -/
def abcRes : Option (Nat × BState) := buildFunction 30 trivCtx fABC initState

/-- A starting state for building the empty block `B` in isolation. -/
def stB : BState := BState.mk 4 [] [] [] [] [] 0

/-- The state after building the empty block `B` from `stB`: only the dummy
phi node `4` was allocated. -/
def stBafter : BState := BState.mk 5 [] [] [] [] [] 0

/-- The directly recursive scenario function `f` (fid 0): its single block
calls `f` itself and returns. -/
def recF : Func :=
  Func.mk 0 "f" false
    [Block.mk 0 [Inst.call 100 false (CalleeKind.direct 0), Inst.ret 101] []]

/-- Context holding only the directly recursive `f`. -/
def recCtx : Ctx :=
  Ctx.mk [recF] [] (fun _ => none) (fun _ => true) (fun _ => 1)

/-- Mutual-recursion scenario: `f` (fid 0) calls `g` (fid 1). -/
def mutF : Func :=
  Func.mk 0 "f" false
    [Block.mk 0 [Inst.call 100 false (CalleeKind.direct 1), Inst.ret 101] []]

/-- Mutual-recursion scenario: `g` (fid 1) calls `f` (fid 0) back. -/
def mutG : Func :=
  Func.mk 1 "g" false
    [Block.mk 1 [Inst.call 102 false (CalleeKind.direct 0), Inst.ret 103] []]

/-- Context holding the mutually recursive pair `f`, `g`. -/
def mutCtx : Ctx :=
  Ctx.mk [mutF, mutG] [] (fun _ => none) (fun _ => true) (fun _ => 1)

/-- Callee function `f` (fid 2) for the function-pointer scenarios. -/
def fpF : Func := Func.mk 2 "f" false [Block.mk 10 [Inst.ret 700] []]

/-- Callee function `g` (fid 3) for the function-pointer scenarios. -/
def fpG : Func := Func.mk 3 "g" false [Block.mk 11 [Inst.ret 701] []]

/-- Function-pointer call context generic over the points-to set of the
called value `600`. -/
def fpCtx (pts : List Pointer) : Ctx :=
  Ctx.mk [fpF, fpG] [] (fun v => if v = 600 then some pts else none)
    (fun _ => true) (fun _ => 1)

/-- Points-to set containing an unknown-memory pointer besides `f` and `g`. -/
def ptsWithUnknown : List Pointer :=
  [Pointer.mk PTarget.unknownMem 0, Pointer.mk (PTarget.obj 2) 0, Pointer.mk (PTarget.obj 3) 0]

/-- Points-to set containing a null pointer besides `f` and `g`. -/
def ptsWithNull : List Pointer :=
  [Pointer.mk PTarget.nullptr 0, Pointer.mk (PTarget.obj 2) 0, Pointer.mk (PTarget.obj 3) 0]

/-- Points-to set `{f, g}` with no sentinels. -/
def ptsTwo : List Pointer :=
  [Pointer.mk (PTarget.obj 2) 0, Pointer.mk (PTarget.obj 3) 0]

/-- Singleton points-to set containing only the null pointer. -/
def ptsNullOnly : List Pointer := [Pointer.mk PTarget.nullptr 0]

/-- The declared-only (empty body) `realloc` function, fid 7. -/
def reallocF : Func := Func.mk 7 "realloc" false []

/-- Context holding only the `realloc` declaration. -/
def reallocCtx : Ctx :=
  Ctx.mk [reallocF] [] (fun _ => none) (fun _ => true) (fun _ => 1)

/-- Store scenario points-to set: the address operand points to the three
allocations `10`, `11` and `12`. -/
def storePts : List Pointer :=
  [Pointer.mk (PTarget.obj 10) 0, Pointer.mk (PTarget.obj 11) 8,
   Pointer.mk (PTarget.obj 12) 16]

/-- Store scenario: the address operand `500` points to three allocations
`10`, `11`, `12`; every type is sized with allocation size 4. -/
def storeCtx : Ctx :=
  Ctx.mk [] [] (fun v => if v = 500 then some storePts else none)
    (fun _ => true) (fun _ => 4)

/-- Store scenario state: RDNodes exist for allocations `10` and `12` but
none was created for `11`. -/
def storeSt : BState := BState.mk 100 [(10, 70), (12, 72)] [] [] [] [] 0

/-- The state `createStore` produces on the store scenario: def-sites for
the resolvable targets `10` and `12`, one diagnostic for the unresolvable
target `11`. -/
def storeStAfter : BState :=
  BState.mk 101 [(501, 100), (10, 70), (12, 72)] [] [] []
    [(100, DefSite.mk 70 0 4 false), (100, DefSite.mk 72 16 4 false)] 1

/-- A function (fid 5) used to instantiate the subgraph-cache lemma. -/
def wF : Func := Func.mk 5 "w" false [Block.mk 0 [Inst.ret 1] []]

/-- Context holding only `wF`. -/
def wCtx : Ctx := Ctx.mk [wF] [] (fun _ => none) (fun _ => true) (fun _ => 1)

/-- A builder state whose subgraph cache already holds `wF`'s record. -/
def wSt : BState := BState.mk 10 [] [] [(5, Subgraph.mk (some 7) (some 8))] [] [] 0

/-- A declared-only `malloc` (fid 9). -/
def mallocF : Func := Func.mk 9 "malloc" false []

/-- Context holding only the `malloc` declaration. -/
def mallocCtx : Ctx :=
  Ctx.mk [mallocF] [] (fun _ => none) (fun _ => true) (fun _ => 1)

end rd

namespace pta

theorem gepStep_ty (nodes : Nat → PSNodeData) (m k : Nat) :
    (gepStep nodes m k).ty = (nodes k).ty := by
  unfold gepStep setOffset
  by_cases hg : (nodes m).ty = PSNodeType.GEP
  · rw [if_pos hg]
    by_cases hk : k = m
    · subst hk; simp
    · simp [hk]
  · rw [if_neg hg]

theorem gepStep_at_ne (nodes : Nat → PSNodeData) (m k : Nat) (h : k ≠ m) :
    gepStep nodes m k = nodes k := by
  unfold gepStep setOffset
  by_cases hg : (nodes m).ty = PSNodeType.GEP
  · rw [if_pos hg]; simp [h]
  · rw [if_neg hg]

theorem gepStep_keeps_unknown (nodes : Nat → PSNodeData) (m k : Nat)
    (h : (nodes k).offset = UNKNOWN_OFFSET) :
    (gepStep nodes m k).offset = UNKNOWN_OFFSET := by
  unfold gepStep setOffset
  by_cases hg : (nodes m).ty = PSNodeType.GEP
  · rw [if_pos hg]
    by_cases hk : k = m
    · subst hk; simp
    · simp [hk, h]
  · rw [if_neg hg]; exact h

theorem gepFold_ty (scc : List Nat) :
    ∀ (nodes : Nat → PSNodeData) (k : Nat),
      ((scc.foldl gepStep nodes) k).ty = (nodes k).ty := by
  induction scc with
  | nil => intro nodes k; rfl
  | cons m rest ih =>
    intro nodes k
    rw [List.foldl_cons, ih, gepStep_ty]

theorem gepFold_keeps_unknown (scc : List Nat) :
    ∀ (nodes : Nat → PSNodeData) (k : Nat),
      (nodes k).offset = UNKNOWN_OFFSET →
      ((scc.foldl gepStep nodes) k).offset = UNKNOWN_OFFSET := by
  induction scc with
  | nil => intro nodes k h; exact h
  | cons m rest ih =>
    intro nodes k h
    rw [List.foldl_cons]
    exact ih _ k (gepStep_keeps_unknown nodes m k h)

theorem gepFold_sets (scc : List Nat) :
    ∀ (nodes : Nat → PSNodeData) (n : Nat), n ∈ scc →
      (nodes n).ty = PSNodeType.GEP →
      ((scc.foldl gepStep nodes) n).offset = UNKNOWN_OFFSET := by
  induction scc with
  | nil => intro _ n h; cases h
  | cons m rest ih =>
    intro nodes n hmem hty
    rw [List.foldl_cons]
    by_cases he : n = m
    · subst he
      have hset : (gepStep nodes n n).offset = UNKNOWN_OFFSET := by
        unfold gepStep setOffset
        rw [if_pos hty]; simp
      exact gepFold_keeps_unknown rest _ n hset
    · rcases List.mem_cons.mp hmem with h1 | h1
      · exact absurd h1 he
      · exact ih (gepStep nodes m) n h1 (by rw [gepStep_ty]; exact hty)

theorem gepFold_not_gep (scc : List Nat) :
    ∀ (nodes : Nat → PSNodeData) (n : Nat),
      (nodes n).ty ≠ PSNodeType.GEP → (scc.foldl gepStep nodes) n = nodes n := by
  induction scc with
  | nil => intro nodes n _; rfl
  | cons m rest ih =>
    intro nodes n h
    rw [List.foldl_cons]
    by_cases he : n = m
    · subst he
      have hid : gepStep nodes n = nodes := by
        unfold gepStep; rw [if_neg h]
      rw [hid]; exact ih nodes n h
    · have hstep : gepStep nodes m n = nodes n := gepStep_at_ne nodes m n he
      rw [ih (gepStep nodes m) n (by rw [gepStep_ty]; exact h), hstep]

theorem gepFold_not_mem (scc : List Nat) :
    ∀ (nodes : Nat → PSNodeData) (n : Nat),
      n ∉ scc → (scc.foldl gepStep nodes) n = nodes n := by
  induction scc with
  | nil => intro nodes n _; rfl
  | cons m rest ih =>
    intro nodes n h
    rw [List.foldl_cons]
    have he : n ≠ m := fun e => h (e ▸ List.mem_cons_self m rest)
    have hrest : n ∉ rest := fun hr => h (List.mem_cons_of_mem m hr)
    rw [ih (gepStep nodes m) n hrest, gepStep_at_ne nodes m n he]

theorem sccPass_ty (nodes : Nat → PSNodeData) (scc : List Nat) (k : Nat) :
    (sccPass nodes scc k).ty = (nodes k).ty := by
  unfold sccPass
  by_cases h1 : 1 < scc.length
  · rw [if_pos h1]; exact gepFold_ty scc nodes k
  · rw [if_neg h1]

theorem sccPass_keeps_unknown (nodes : Nat → PSNodeData) (scc : List Nat) (k : Nat)
    (h : (nodes k).offset = UNKNOWN_OFFSET) :
    (sccPass nodes scc k).offset = UNKNOWN_OFFSET := by
  unfold sccPass
  by_cases h1 : 1 < scc.length
  · rw [if_pos h1]; exact gepFold_keeps_unknown scc nodes k h
  · rw [if_neg h1]; exact h

theorem sccPass_id (nodes : Nat → PSNodeData) (scc : List Nat) (n : Nat)
    (h : (nodes n).ty ≠ PSNodeType.GEP ∨ (n ∈ scc → scc.length ≤ 1)) :
    sccPass nodes scc n = nodes n := by
  unfold sccPass
  by_cases h1 : 1 < scc.length
  · rw [if_pos h1]
    rcases h with hty | hmem
    · exact gepFold_not_gep scc nodes n hty
    · exact gepFold_not_mem scc nodes n (fun hm => absurd h1 (Nat.not_lt.mpr (hmem hm)))
  · rw [if_neg h1]

theorem outerFold_ty (SCCs : List (List Nat)) :
    ∀ (nodes : Nat → PSNodeData) (k : Nat),
      ((SCCs.foldl sccPass nodes) k).ty = (nodes k).ty := by
  induction SCCs with
  | nil => intro nodes k; rfl
  | cons scc rest ih =>
    intro nodes k
    rw [List.foldl_cons, ih, sccPass_ty]

theorem outerFold_keeps_unknown (SCCs : List (List Nat)) :
    ∀ (nodes : Nat → PSNodeData) (k : Nat),
      (nodes k).offset = UNKNOWN_OFFSET →
      ((SCCs.foldl sccPass nodes) k).offset = UNKNOWN_OFFSET := by
  induction SCCs with
  | nil => intro nodes k h; exact h
  | cons scc rest ih =>
    intro nodes k h
    rw [List.foldl_cons]
    exact ih _ k (sccPass_keeps_unknown nodes scc k h)

theorem preprocessGEPs_sets_aux (SCCs : List (List Nat)) :
    ∀ (nodes : Nat → PSNodeData) (n : Nat) (scc : List Nat),
      scc ∈ SCCs → 1 < scc.length → n ∈ scc → (nodes n).ty = PSNodeType.GEP →
      ((SCCs.foldl sccPass nodes) n).offset = UNKNOWN_OFFSET := by
  induction SCCs with
  | nil => intro _ _ _ h; cases h
  | cons scc0 rest ih =>
    intro nodes n scc hscc hlen hmem hty
    rw [List.foldl_cons]
    rcases List.mem_cons.mp hscc with h1 | h1
    · subst h1
      have hset : (sccPass nodes scc n).offset = UNKNOWN_OFFSET := by
        unfold sccPass
        rw [if_pos hlen]
        exact gepFold_sets scc nodes n hmem hty
      exact outerFold_keeps_unknown rest _ n hset
    · exact ih (sccPass nodes scc0) n scc h1 hlen hmem (by rw [sccPass_ty]; exact hty)

theorem preprocessGEPs_id_aux (SCCs : List (List Nat)) :
    ∀ (nodes : Nat → PSNodeData) (n : Nat),
      ((nodes n).ty ≠ PSNodeType.GEP ∨ ∀ scc ∈ SCCs, n ∈ scc → scc.length ≤ 1) →
      (SCCs.foldl sccPass nodes) n = nodes n := by
  induction SCCs with
  | nil => intro nodes n _; rfl
  | cons scc0 rest ih =>
    intro nodes n h
    rw [List.foldl_cons]
    have hstep : sccPass nodes scc0 n = nodes n := by
      apply sccPass_id
      rcases h with hty | hall
      · exact Or.inl hty
      · exact Or.inr (hall scc0 (List.mem_cons_self scc0 rest))
    have hrest : ((sccPass nodes scc0) n).ty ≠ PSNodeType.GEP ∨
        ∀ scc ∈ rest, n ∈ scc → scc.length ≤ 1 := by
      rcases h with hty | hall
      · exact Or.inl (by rw [sccPass_ty]; exact hty)
      · exact Or.inr (fun scc hs => hall scc (List.mem_cons_of_mem scc0 hs))
    rw [ih (sccPass nodes scc0) n hrest, hstep]

/-- C6: after `preprocessGEPs` runs, every GEP node lying in an SCC of size
greater than one has offset `UNKNOWN_OFFSET`, and a node that is not a GEP,
or that lies only in singleton SCCs, is left entirely unchanged. -/
theorem preprocessGEPs_gep_in_cycle (SCCs : List (List Nat))
    (nodes : Nat → PSNodeData) (n : Nat) :
    ((∃ scc, scc ∈ SCCs ∧ 1 < scc.length ∧ n ∈ scc) →
      (nodes n).ty = PSNodeType.GEP →
      (preprocessGEPs SCCs nodes n).offset = UNKNOWN_OFFSET) ∧
    ((nodes n).ty ≠ PSNodeType.GEP ∨ (∀ scc ∈ SCCs, n ∈ scc → scc.length ≤ 1) →
      preprocessGEPs SCCs nodes n = nodes n) := by
  constructor
  · rintro ⟨scc, hscc, hlen, hmem⟩ hty
    exact preprocessGEPs_sets_aux SCCs nodes n scc hscc hlen hmem hty
  · intro h
    exact preprocessGEPs_id_aux SCCs nodes n h

/-- Witness for C6 at a concrete SCC decomposition and node-data store:
node 0 (a GEP inside the two-element SCC `[0, 1]`) ends at
`UNKNOWN_OFFSET`; node 2 (a GEP in the singleton SCC `[2]`) is unchanged. -/
theorem preprocessGEPs_gep_in_cycle_witness :
    (preprocessGEPs [[0, 1], [2]] wNodes 0).offset = UNKNOWN_OFFSET ∧
    preprocessGEPs [[0, 1], [2]] wNodes 2 = wNodes 2 :=
  ⟨(preprocessGEPs_gep_in_cycle [[0, 1], [2]] wNodes 0).1
      ⟨[0, 1], by decide, by decide, by decide⟩ (by decide),
   (preprocessGEPs_gep_in_cycle [[0, 1], [2]] wNodes 2).2
      (Or.inr (by decide))⟩

theorem collectChanged_sublist {σ : Type} (step : Nat → σ → Bool × σ) :
    ∀ (tp : List Nat) (st : σ), (collectChanged step tp st).1.Sublist tp := by
  intro tp
  induction tp with
  | nil => intro st; exact List.Sublist.refl []
  | cons cur rest ih =>
    intro st
    simp only [collectChanged]
    split
    · exact List.Sublist.cons₂ cur (ih _)
    · exact List.Sublist.cons cur (ih _)

theorem subset_iterExpand (g : PSGraph) :
    ∀ (k : Nat) (l : List Nat), l ⊆ iterExpand g k l := by
  intro k
  induction k with
  | zero => intro l a ha; exact ha
  | succ k ih =>
    intro l a ha
    show a ∈ iterExpand g (k + 1) l
    simp only [iterExpand]
    exact ih (reachExpand g l) (List.mem_append_left _ ha)

theorem mem_getNodesFrom_of_seed (g : PSGraph) (seeds : List Nat) (hint a : Nat)
    (h : a ∈ seeds) : a ∈ getNodesFrom g seeds hint := by
  unfold getNodesFrom
  rw [List.mem_dedup]
  exact subset_iterExpand g g.nodes.length seeds h

theorem getNodesFrom_nodup (g : PSGraph) (seeds : List Nat) (hint : Nat) :
    (getNodesFrom g seeds hint).Nodup :=
  List.nodup_dedup _

theorem length_le_getNodesFrom (g : PSGraph) (seeds : List Nat) (hint : Nat)
    (h : seeds.Nodup) : seeds.length ≤ (getNodesFrom g seeds hint).length := by
  have hsub : seeds.toFinset ⊆ (getNodesFrom g seeds hint).toFinset := by
    intro a ha
    rw [List.mem_toFinset] at ha
    rw [List.mem_toFinset]
    exact mem_getNodesFrom_of_seed g seeds hint a ha
  have hcard := Finset.card_le_card hsub
  rwa [List.toFinset_card_of_nodup h,
       List.toFinset_card_of_nodup (getNodesFrom_nodup g seeds hint)] at hcard

/-- C5: in every iteration of `run()` with a non-empty `changed` list, the
re-enumeration from the `changed` seeds is non-empty and at least as long as
`changed`, so both assertions after it hold; moreover the re-enumeration is
itself duplicate-free, re-establishing the hypothesis for the next
iteration (the initial `to_process`, produced by `getNodes(root)`, is
duplicate-free by `getNodesFrom_nodup`). -/
theorem run_reenumeration_assert_holds {σ : Type} (step : Nat → σ → Bool × σ)
    (g : PSGraph) (tp : List Nat) (st : σ)
    (hnodup : tp.Nodup)
    (hne : (collectChanged step tp st).1 ≠ []) :
    getNodesFrom g (collectChanged step tp st).1 tp.length ≠ [] ∧
    (collectChanged step tp st).1.length ≤
      (getNodesFrom g (collectChanged step tp st).1 tp.length).length ∧
    (getNodesFrom g (collectChanged step tp st).1 tp.length).Nodup := by
  have hchanged : (collectChanged step tp st).1.Nodup :=
    (collectChanged_sublist step tp st).nodup hnodup
  refine ⟨?_, ?_, getNodesFrom_nodup g _ _⟩
  · rcases List.exists_mem_of_ne_nil _ hne with ⟨a, ha⟩
    exact List.ne_nil_of_mem (mem_getNodesFrom_of_seed g _ tp.length a ha)
  · exact length_le_getNodesFrom g _ tp.length hchanged

/-- Witness for C5 at a concrete graph, seed list and processing function
reporting growth everywhere. -/
theorem run_reenumeration_assert_holds_witness :
    getNodesFrom g0 (collectChanged step0 [0, 1] 0).1 ([0, 1] : List Nat).length ≠ [] ∧
    (collectChanged step0 [0, 1] 0).1.length ≤
      (getNodesFrom g0 (collectChanged step0 [0, 1] 0).1 ([0, 1] : List Nat).length).length ∧
    (getNodesFrom g0 (collectChanged step0 [0, 1] 0).1 ([0, 1] : List Nat).length).Nodup :=
  run_reenumeration_assert_holds step0 g0 [0, 1] 0 (by decide) (by decide)

end pta

namespace rd

theorem buildBlock_zero (ctx : Ctx) (b : Block) (s : BState) :
    buildBlock 0 ctx b s = none := rfl

theorem buildBlock_succ (fuel : Nat) (ctx : Ctx) (b : Block) (s : BState) :
    buildBlock (fuel + 1) ctx b s =
      (match buildInsts fuel ctx b.insts s.next { s with next := s.next + 1 } with
       | none => none
       | some (last, s2) => some ((some s.next, some last), s2)) := rfl

theorem createCall_direct_succ (fuel : Nat) (ctx : Ctx) (instId fid : Nat) (s : BState) :
    createCall (fuel + 1) ctx instId (CalleeKind.direct fid) s =
      (match lookupFunc ctx.module fid with
       | none => none
       | some func =>
         match getMemAllocationFunc func with
         | none => none
         | some ty =>
           if ty ≠ MemAllocKind.NONEMEM ∨ func.blocks.length = 0 then
             some ((s.next, s.next),
               { s with
                 next := s.next + 1,
                 nodes_map := mapInsert instId s.next s.nodes_map })
           else if func.intrinsic then none
           else
             match createCallToFunction fuel ctx instId func s with
             | none => none
             | some (cf, s1) =>
               some (cf, { s1 with nodes_map := mapInsert instId cf.1 s1.nodes_map })) := rfl

theorem createCall_indirect_succ (fuel : Nat) (ctx : Ctx) (instId v : Nat) (s : BState) :
    createCall (fuel + 1) ctx instId (CalleeKind.indirect v) s =
      (match ctx.pta v with
       | none => none
       | some pts =>
         if pts.length = 0 then none
         else if 1 < pts.length then
           match funcPtrLoop fuel ctx instId pts s.next (s.next + 1)
               { s with
                 next := s.next + 2,
                 nodes_map := mapInsert instId s.next s.nodes_map } with
           | none => none
           | some s2 => some ((s.next, s.next + 1), s2)
         else
           match pts with
           | [] => none
           | ptr :: _ =>
             match Option.bind (PTarget.userData ptr.target) (lookupFunc ctx.module) with
             | none => none
             | some func => createCallToFunction fuel ctx instId func s) := rfl

theorem createCallToFunction_succ (fuel : Nat) (ctx : Ctx) (instId : Nat) (F : Func)
    (s : BState) :
    createCallToFunction (fuel + 1) ctx instId F s =
      (match (List.lookup F.fid s.subgraphs_map).getD (Subgraph.mk none none) with
       | Subgraph.mk (some r) (some t) =>
         some ((s.next + 1, s.next),
           addEdge t s.next (addEdge (s.next + 1) r { s with next := s.next + 2 }))
       | Subgraph.mk (some _) none => none
       | Subgraph.mk none _ =>
         match buildFunction fuel ctx F { s with next := s.next + 2 } with
         | none => none
         | some (_, s2) =>
           match (List.lookup F.fid s2.subgraphs_map).getD (Subgraph.mk none none) with
           | Subgraph.mk (some r) (some t) =>
             some ((s.next + 1, s.next),
               addEdge t s.next (addEdge (s.next + 1) r s2))
           | _ => none) := rfl

theorem storeFold_mem (ctx : Ctx) (valTy card n : Nat) :
    ∀ (pts : List Pointer) (s : BState) (p : Nat × DefSite),
      p ∈ (pts.foldl (storeStep ctx valTy card n) s).defs →
      p ∈ s.defs ∨
        (p.1 = n ∧
          p.2.size = (if getAllocatedSize ctx valTy = 0 then UNKNOWN_OFFSET
                      else getAllocatedSize ctx valTy) ∧
          p.2.strong = (card == 1)) := by
  intro pts
  induction pts with
  | nil => intro s p h; exact Or.inl h
  | cons ptr rest ih =>
    intro s p h
    rw [List.foldl_cons] at h
    rcases ih _ p h with h1 | h1
    · unfold storeStep at h1
      by_cases hnull : Pointer.isNull ptr = true
      · rw [if_pos hnull] at h1; exact Or.inl h1
      · rw [if_neg hnull] at h1
        cases hres : Option.bind (PTarget.userData ptr.target)
            (fun v => List.lookup v s.nodes_map) with
        | none => rw [hres] at h1; exact Or.inl h1
        | some ptrNode =>
          rw [hres] at h1
          simp only at h1
          rcases List.mem_append.mp h1 with h2 | h2
          · exact Or.inl h2
          · rcases List.mem_singleton.mp h2 with rfl
            exact Or.inr ⟨rfl, rfl, rfl⟩
    · exact Or.inr h1

theorem getAllocatedSize_eq_allocSize (ctx : Ctx) (ty : Nat)
    (h : getAllocatedSize ctx ty ≠ 0) :
    getAllocatedSize ctx ty = ctx.allocSize ty := by
  unfold getAllocatedSize at *
  by_cases hs : ctx.isSized ty = false
  · rw [if_pos hs] at h; exact absurd rfl h
  · rw [if_neg hs]

/-- C3: every def-site added by `createStore` carries the strong-update flag
`pts->pointsTo.size() == 1`, computed on the full points-to set of the
store's address operand (null targets included in the count even though they
produce no def-site). -/
theorem createStore_strong_update_iff_singleton
    (ctx : Ctx) (instId valTy addr : Nat) (s : BState) (pts : List Pointer)
    (n : Nat) (s' : BState) (p : Nat × DefSite)
    (hpts : ctx.pta addr = some pts)
    (hres : createStore ctx instId valTy addr s = some (n, s'))
    (hp : p ∈ s'.defs) :
    p ∈ s.defs ∨ p.2.strong = (pts.length == 1) := by
  simp only [createStore, hpts, Option.some.injEq, Prod.mk.injEq] at hres
  obtain ⟨hn, hs⟩ := hres
  subst hs
  rcases storeFold_mem ctx valTy pts.length s.next pts _ p hp with h | h
  · exact Or.inl h
  · exact Or.inr h.2.2

/-- Witness for C3 on the concrete store scenario: the def-site recorded for
allocation 10 is weak because the address points-to set has three
elements. -/
theorem createStore_strong_update_iff_singleton_witness :
    ((100, DefSite.mk 70 0 4 false) ∈ storeSt.defs) ∨
      (DefSite.mk 70 0 4 false).strong = (storePts.length == 1) :=
  createStore_strong_update_iff_singleton storeCtx 501 77 500 storeSt storePts 100
    storeStAfter (100, DefSite.mk 70 0 4 false) (by decide) (by decide) (by decide)

/-- C7: every def-site added by `createStore` has size `UNKNOWN_OFFSET` when
the allocated size of the stored value's type is zero (in particular for
unsized types), and the `DataLayout` allocation size otherwise. -/
theorem createStore_defsite_size
    (ctx : Ctx) (instId valTy addr : Nat) (s : BState) (pts : List Pointer)
    (n : Nat) (s' : BState) (p : Nat × DefSite)
    (hpts : ctx.pta addr = some pts)
    (hres : createStore ctx instId valTy addr s = some (n, s'))
    (hp : p ∈ s'.defs) :
    p ∈ s.defs ∨
      p.2.size = (if getAllocatedSize ctx valTy = 0 then UNKNOWN_OFFSET
                  else ctx.allocSize valTy) := by
  simp only [createStore, hpts, Option.some.injEq, Prod.mk.injEq] at hres
  obtain ⟨hn, hs⟩ := hres
  subst hs
  rcases storeFold_mem ctx valTy pts.length s.next pts _ p hp with h | h
  · exact Or.inl h
  · refine Or.inr ?_
    rcases h with ⟨-, hsize, -⟩
    by_cases hz : getAllocatedSize ctx valTy = 0
    · rwa [if_pos hz] at hsize ⊢
    · rw [if_neg hz] at hsize ⊢
      rw [hsize]
      exact getAllocatedSize_eq_allocSize ctx valTy hz

/-- Witness for C7 on the concrete store scenario: the recorded size is the
`DataLayout` allocation size 4 of the stored value's (sized) type. -/
theorem createStore_defsite_size_witness :
    ((100, DefSite.mk 70 0 4 false) ∈ storeSt.defs) ∨
      (DefSite.mk 70 0 4 false).size =
        (if getAllocatedSize storeCtx 77 = 0 then UNKNOWN_OFFSET
         else storeCtx.allocSize 77) :=
  createStore_defsite_size storeCtx 501 77 500 storeSt storePts 100
    storeStAfter (100, DefSite.mk 70 0 4 false) (by decide) (by decide) (by decide)

/-- C1 counterexample: in the concrete CFG `A → B → C` of `fABC` (block `B`
has no instructions), building `B` exports the non-null pair `(4, 4)` — the
dummy "PHI start block" node — not `(null, null)`; and in the full build the
stitched edges are `last_A = 3 → phi_B = 4` and `phi_B = 4 → first_C = 5`,
while the claimed bypass edge `last_A = 3 → first_C = 5` is never added. -/
theorem empty_block_pair_counterexample :
    buildBlock 5 trivCtx blockB stB = some ((some 4, some 4), stBafter) ∧
    ((some 4, some 4) : Option Nat × Option Nat) ≠ (none, none) ∧
    (3, 5) ∉ edgesOf abcRes ∧
    (3, 4) ∈ edgesOf abcRes ∧
    (4, 5) ∈ edgesOf abcRes :=
  ⟨by decide, by decide, by decide, by decide, by decide⟩

/-- C1 amended: `buildBlock` always exports a non-null pair whose first
component is the dummy "PHI start block" node allocated on entry (for a
block emitting no instruction node the pair is `(phi, phi)`), so the
empty-block bypass branch of `blockAddSuccessors` never fires for blocks of
the built function: in `A → B → C` with `B` empty the stitching adds
`last_A → phi_B` and `phi_B → first_C`, and `B` does own an RDNode. -/
theorem buildBlock_exports_nonnull_pair
    (fuel : Nat) (ctx : Ctx) (b : Block) (s : BState)
    (nds : Option Nat × Option Nat) (s' : BState)
    (h : buildBlock fuel ctx b s = some (nds, s')) :
    nds.1 = some s.next ∧ nds.2.isSome = true ∧
    (3, 4) ∈ edgesOf abcRes ∧ (4, 5) ∈ edgesOf abcRes ∧ (3, 5) ∉ edgesOf abcRes := by
  have hpair : nds.1 = some s.next ∧ nds.2.isSome = true := by
    cases fuel with
    | zero =>
      rw [buildBlock_zero] at h
      exact Option.noConfusion h
    | succ fuel =>
      rw [buildBlock_succ] at h
      cases hbi : buildInsts fuel ctx b.insts s.next { s with next := s.next + 1 } with
      | none =>
        rw [hbi] at h
        exact Option.noConfusion h
      | some r =>
        obtain ⟨last, s2⟩ := r
        rw [hbi] at h
        simp only [Option.some.injEq, Prod.mk.injEq] at h
        obtain ⟨hnds, -⟩ := h
        rw [← hnds]
        exact ⟨rfl, rfl⟩
  exact ⟨hpair.1, hpair.2, by decide, by decide, by decide⟩

/-- Witness for the amended C1 theorem: building the empty block `B` from a
state whose arena counter is 4 exports the pair `(some 4, some 4)`. -/
theorem buildBlock_exports_nonnull_pair_witness :
    ((some 4, some 4) : Option Nat × Option Nat).1 = some stB.next ∧
    ((some 4, some 4) : Option Nat × Option Nat).2.isSome = true ∧
    (3, 4) ∈ edgesOf abcRes ∧ (4, 5) ∈ edgesOf abcRes ∧ (3, 5) ∉ edgesOf abcRes :=
  buildBlock_exports_nonnull_pair 5 trivCtx blockB stB (some 4, some 4) stBafter
    (by decide)

/-- C2 (code bug): on an indirect call whose callee points-to set is
`{unknown, f, g}`, the fan-out loop does not skip the unknown pointer — only
`ptr.isNull()` is tested — so it dereferences the unknown target's absent
user data and the build dies (`none`); with the unknown pointer removed, or
replaced by a null pointer (which *is* skipped), the same call builds
fine. -/
theorem funcptr_unknown_pointer_not_skipped :
    createCall 30 (fpCtx ptsWithUnknown) 601 (CalleeKind.indirect 600) initState = none ∧
    (createCall 30 (fpCtx ptsTwo) 601 (CalleeKind.indirect 600) initState).isSome = true ∧
    (createCall 30 (fpCtx ptsWithNull) 601 (CalleeKind.indirect 600) initState).isSome
      = true :=
  ⟨by decide, by decide, by decide⟩

/-- C10: when the callee points-to set of an indirect call is the singleton
`{null}`, `createCall` takes the treat-as-direct path and dereferences the
null pointer's (absent) user data with no null check — the build dies —
whereas the multi-target fan-out path skips null pointers (second
conjunct). -/
theorem singleton_funcptr_no_null_check
    (fuel : Nat) (ctx : Ctx) (instId v : Nat) (s : BState)
    (h : ctx.pta v = some [Pointer.mk PTarget.nullptr 0]) :
    createCall (fuel + 1) ctx instId (CalleeKind.indirect v) s = none ∧
    (createCall 30 (fpCtx ptsWithNull) 601 (CalleeKind.indirect 600) initState).isSome
      = true := by
  refine ⟨?_, by decide⟩
  rw [createCall_indirect_succ, h]
  rfl

/-- Witness for C10: a concrete context whose called value points only to
null. -/
theorem singleton_funcptr_no_null_check_witness :
    createCall 1 (fpCtx ptsNullOnly) 601 (CalleeKind.indirect 600) initState = none ∧
    (createCall 30 (fpCtx ptsWithNull) 601 (CalleeKind.indirect 600) initState).isSome
      = true :=
  singleton_funcptr_no_null_check 0 (fpCtx ptsNullOnly) 601 600 initState (by decide)

/-- C9: on the store scenario whose middle target (allocation 11) has no
RDNode in `nodes_map`, `createStore` returns normally (no abort), writes
exactly one diagnostic, skips only the offending def-site, and still records
the def-sites of the targets both before and after it. -/
theorem createStore_missing_node_logged_and_skipped :
    createStore storeCtx 501 77 500 storeSt = some (100, storeStAfter) ∧
    storeStAfter.logs = storeSt.logs + 1 ∧
    storeStAfter.defs =
      [(100, DefSite.mk 70 0 4 false), (100, DefSite.mk 72 16 4 false)] :=
  ⟨by decide, by decide, by decide⟩

theorem getMemAllocationFunc_malloc (F : Func) (h : F.name = "malloc") :
    getMemAllocationFunc F = some MemAllocKind.MALLOC := by
  unfold getMemAllocationFunc
  rw [h]
  decide

theorem getMemAllocationFunc_calloc (F : Func) (h : F.name = "calloc") :
    getMemAllocationFunc F = some MemAllocKind.CALLOC := by
  unfold getMemAllocationFunc
  rw [h]
  decide

theorem getMemAllocationFunc_alloca (F : Func) (h : F.name = "alloca") :
    getMemAllocationFunc F = some MemAllocKind.ALLOCA := by
  unfold getMemAllocationFunc
  rw [h]
  decide

theorem getMemAllocationFunc_of_not_realloc (F : Func) (h : F.name ≠ "realloc") :
    ∃ k, getMemAllocationFunc F = some k := by
  unfold getMemAllocationFunc
  split_ifs <;> exact ⟨_, rfl⟩

/-- C8 counterexample: a direct call to a declared-only (empty body)
function named `realloc` does not produce an allocation node pair — the
`realloc` branch of `getMemAllocationFunc` is fatal
(`assert(0 && "realloc not implemented yet")`), so `createCall` dies. -/
theorem createCall_realloc_counterexample :
    createCall 3 reallocCtx 55 (CalleeKind.direct 7) initState = none ∧
    reallocF.blocks.length = 0 ∧
    reallocF.name = "realloc" :=
  ⟨by decide, by decide, by decide⟩

/-- C8 amended: for every direct call whose callee is a recognized
allocator (`malloc`, `calloc`, `alloca`) or has an empty body *and is not
named `realloc`*, `createCall` allocates exactly one fresh RDNode `n`
(recorded in `nodes_map` for the call), returns `(n, n)`, and neither
builds nor caches any `Subgraph` (the subgraph cache of the result equals
the input's). -/
theorem createCall_allocator_single_node
    (fuel : Nat) (ctx : Ctx) (instId fid : Nat) (F : Func) (s : BState)
    (hF : lookupFunc ctx.module fid = some F)
    (hkind : F.name = "malloc" ∨ F.name = "calloc" ∨ F.name = "alloca" ∨
      (F.blocks = [] ∧ F.name ≠ "realloc")) :
    createCall (fuel + 1) ctx instId (CalleeKind.direct fid) s =
      some ((s.next, s.next),
        { s with
          next := s.next + 1,
          nodes_map := mapInsert instId s.next s.nodes_map }) ∧
    ({ s with
       next := s.next + 1,
       nodes_map := mapInsert instId s.next s.nodes_map } : BState).subgraphs_map
      = s.subgraphs_map := by
  refine ⟨?_, rfl⟩
  rw [createCall_direct_succ]
  simp only [hF]
  obtain ⟨k, hk, hcond⟩ : ∃ k, getMemAllocationFunc F = some k ∧
      (k ≠ MemAllocKind.NONEMEM ∨ F.blocks.length = 0) := by
    rcases hkind with h | h | h | ⟨hb, hr⟩
    · exact ⟨_, getMemAllocationFunc_malloc F h, Or.inl (by decide)⟩
    · exact ⟨_, getMemAllocationFunc_calloc F h, Or.inl (by decide)⟩
    · exact ⟨_, getMemAllocationFunc_alloca F h, Or.inl (by decide)⟩
    · obtain ⟨k, hk⟩ := getMemAllocationFunc_of_not_realloc F hr
      exact ⟨k, hk, Or.inr (by rw [hb]; rfl)⟩
  simp only [hk]
  rw [if_pos hcond]

/-- Witness for the amended C8 theorem: a direct call to a declared
`malloc` yields a single fresh node returned as both ends of the pair, the
subgraph cache untouched. -/
theorem createCall_allocator_single_node_witness :
    createCall 1 mallocCtx 42 (CalleeKind.direct 9) initState =
      some ((initState.next, initState.next),
        { initState with
          next := initState.next + 1,
          nodes_map := mapInsert 42 initState.next initState.nodes_map }) ∧
    ({ initState with
       next := initState.next + 1,
       nodes_map := mapInsert 42 initState.next initState.nodes_map } : BState).subgraphs_map
      = initState.subgraphs_map :=
  createCall_allocator_single_node 0 mallocCtx 42 9 mallocF initState (by decide)
    (Or.inl rfl)

/-- C4: building the directly recursive `f` (whose body calls `f`) and the
mutually recursive pair `f`, `g` terminates with exactly one `Subgraph`
record per function, because `buildFunction` inserts `(root, ret)` into
`subgraphs_map` before building the blocks; in general, whenever a
function's record is already cached, `createCallToFunction` reuses it —
wiring the fresh call/return dummies to the cached root and ret — and
leaves `subgraphs_map` unchanged, so no second `Subgraph` is ever built. -/
theorem recursive_build_single_subgraph :
    (buildFunction 20 recCtx recF initState).isSome = true ∧
    subgraphsOf (buildFunction 20 recCtx recF initState) =
      [(0, Subgraph.mk (some 0) (some 1))] ∧
    subgraphsOf (buildFunction 30 mutCtx mutF initState) =
      [(1, Subgraph.mk (some 5) (some 6)), (0, Subgraph.mk (some 0) (some 1))] ∧
    ∀ (fuel : Nat) (ctx : Ctx) (instId : Nat) (F : Func) (s : BState) (r t : Nat),
      List.lookup F.fid s.subgraphs_map = some (Subgraph.mk (some r) (some t)) →
      createCallToFunction (fuel + 1) ctx instId F s =
        some ((s.next + 1, s.next),
          addEdge t s.next (addEdge (s.next + 1) r { s with next := s.next + 2 })) ∧
      (addEdge t s.next
          (addEdge (s.next + 1) r { s with next := s.next + 2 })).subgraphs_map
        = s.subgraphs_map := by
  refine ⟨by decide, by decide, by decide, ?_⟩
  intro fuel ctx instId F s r t h
  refine ⟨?_, rfl⟩
  rw [createCallToFunction_succ, h]
  rfl

/-- Witness for C4's cache-reuse part: with `wF`'s record `(7, 8)` already
cached, `createCallToFunction` wires the dummies to it and leaves the cache
unchanged. -/
theorem recursive_build_single_subgraph_witness :
    createCallToFunction 1 wCtx 99 wF wSt =
      some ((wSt.next + 1, wSt.next),
        addEdge 8 wSt.next (addEdge (wSt.next + 1) 7 { wSt with next := wSt.next + 2 })) ∧
    (addEdge 8 wSt.next
        (addEdge (wSt.next + 1) 7 { wSt with next := wSt.next + 2 })).subgraphs_map
      = wSt.subgraphs_map :=
  recursive_build_single_subgraph.2.2.2 0 wCtx 99 wF wSt 7 8 (by decide)

end rd

end dg
